import Mathlib

/-!
Verification of the adaptive image-sourcing subsystem of the presentation
backend (FastAPI server).  The development shallowly embeds, in Lean:

* the keyword/LLM classifier `AdaptiveImageService.decide_image_source`
  (services/adaptive_image_service.py),
* the multi-provider aggregator `AdaptiveImageService.search_multiple_sources`
  with its round-robin interleave,
* the top-level entry point `AdaptiveImageService.get_adaptive_image`,
* `ImagePrompt.get_image_prompt` (models/image_prompt.py),
* `ImageGenerationService.generate_image`, the ComfyUI poller
  `_wait_for_comfyui_completion` and `_inject_prompt_into_workflow`
  (services/image_generation_service.py).

External effects (network calls, the language-model transport, the
filesystem, environment lookups) are passed in as explicit parameters;
`Except Unit` models a call that can raise.  Machine-level details of the
Python runtime (asyncio scheduling, pydantic validation) are outside the
embedding; the JSON decoder of the standard library is modelled by a small
executable parser covering objects, arrays, strings (common escapes),
integer numerals, `true`, `false` and `null` — the claims never depend on
numeric values or on exotic escape sequences.
-/

/-! ### Characters and substring search

`decide_image_source` tests Python `kw in prompt_lower`, i.e. substring
containment; we implement it executably on character lists. -/

/-- Opening brace character (written via its code point). -/
def lbraceChar : Char := Char.ofNat 123

/-- Closing brace character (written via its code point). -/
def rbraceChar : Char := Char.ofNat 125

/-- Double-quote character. -/
def quoteChar : Char := Char.ofNat 34

/-- Backslash character. -/
def backslashChar : Char := Char.ofNat 92

/-- `isPrefixChars n h` : the list `n` is a prefix of `h`. -/
def isPrefixChars : List Char → List Char → Bool
  | [], _ => true
  | _ :: _, [] => false
  | a :: as, b :: bs => a == b && isPrefixChars as bs

/-- `containsSubChars n h` : `n` occurs as a contiguous sublist of `h`
(Python `n in h` on strings). -/
def containsSubChars (needle : List Char) : List Char → Bool
  | [] => needle.isEmpty
  | c :: rest => isPrefixChars needle (c :: rest) || containsSubChars needle rest

/-- Python `needle in hay` substring test. -/
def containsSubstr (hay needle : String) : Bool :=
  containsSubChars needle.toList hay.toList

/-- Python `str.lower()`, character-wise (`Char.toLower`; the keyword lists
below are ASCII, for which this agrees with Python). -/
def toLowerPy (s : String) : String := String.mk (s.toList.map Char.toLower)

/-! ### JSON values and a decoder

`decide_image_source` feeds the regex-extracted text to `json.loads`; the
parsed value is a Python object.  We model the values the decoder can
produce (numbers restricted to integers, see the header note). -/

/-- JSON value as produced by the decoder. -/
inductive JValue where
  | str (s : String)
  | num (n : Int)
  | bool (b : Bool)
  | null
  | arr (elems : List JValue)
  | obj (members : List (String × JValue))

/-- Whitespace skipping of the decoder. -/
def skipWs : List Char → List Char
  | [] => []
  | c :: cs =>
    if c = ' ' ∨ c = Char.ofNat 9 ∨ c = Char.ofNat 10 ∨ c = Char.ofNat 13 then skipWs cs
    else c :: cs

/-- Parse the body of a JSON string literal (the opening quote already
consumed); returns the decoded characters and the input after the closing
quote.  Unsupported escapes (notably unicode escapes) fail the parse. -/
def parseStringBody : List Char → Option (List Char × List Char)
  | [] => none
  | c :: cs =>
    if c = quoteChar then some ([], cs)
    else if c = backslashChar then
      match cs with
      | [] => none
      | e :: cs2 =>
        let dec : Option Char :=
          if e = quoteChar then some quoteChar
          else if e = backslashChar then some backslashChar
          else if e = '/' then some '/'
          else if e = 'n' then some (Char.ofNat 10)
          else if e = 't' then some (Char.ofNat 9)
          else if e = 'r' then some (Char.ofNat 13)
          else if e = 'b' then some (Char.ofNat 8)
          else if e = 'f' then some (Char.ofNat 12)
          else none
        match dec with
        | some d => (parseStringBody cs2).map (fun p => (d :: p.1, p.2))
        | none => none
    else (parseStringBody cs).map (fun p => (c :: p.1, p.2))

/-- Accumulate a run of decimal digits into a number. -/
def parseDigitsAux : Nat → List Char → Nat × List Char
  | acc, [] => (acc, [])
  | acc, c :: cs =>
    if c.isDigit then parseDigitsAux (acc * 10 + (c.toNat - 48)) cs else (acc, c :: cs)

/-- Reject a numeral continued by a fraction or exponent (floats are outside
the model, see the header note). -/
def rejectFracExp (v : Int) : List Char → Option (Int × List Char)
  | [] => some (v, [])
  | r :: rest =>
    if r = '.' ∨ r = 'e' ∨ r = 'E' then none else some (v, r :: rest)

/-- Parse an (integer) JSON numeral. -/
def parseNumber : List Char → Option (Int × List Char)
  | [] => none
  | c :: cs =>
    if c = '-' then
      match cs with
      | d :: _ =>
        if d.isDigit then
          let p := parseDigitsAux 0 cs
          rejectFracExp (-(p.1 : Int)) p.2
        else none
      | [] => none
    else if c.isDigit then
      let p := parseDigitsAux 0 (c :: cs)
      rejectFracExp (p.1 : Int) p.2
    else none

mutual

/-- Parse a JSON value; `fuel` bounds the recursion depth (always adequate
for the concrete inputs the development evaluates). -/
def parseValue : Nat → List Char → Option (JValue × List Char)
  | 0, _ => none
  | fuel + 1, cs =>
    match skipWs cs with
    | [] => none
    | c :: rest =>
      if c = quoteChar then
        (parseStringBody rest).map (fun p => (JValue.str (String.mk p.1), p.2))
      else if c = lbraceChar then parseMembersStart fuel rest
      else if c = '[' then parseItemsStart fuel rest
      else
        match c :: rest with
        | 't' :: 'r' :: 'u' :: 'e' :: r => some (JValue.bool true, r)
        | 'f' :: 'a' :: 'l' :: 's' :: 'e' :: r => some (JValue.bool false, r)
        | 'n' :: 'u' :: 'l' :: 'l' :: r => some (JValue.null, r)
        | l => (parseNumber l).map (fun p => (JValue.num p.1, p.2))

/-- Parse the inside of an object, just after the opening brace. -/
def parseMembersStart : Nat → List Char → Option (JValue × List Char)
  | 0, _ => none
  | fuel + 1, cs =>
    match skipWs cs with
    | [] => none
    | c :: rest =>
      if c = rbraceChar then some (JValue.obj [], rest)
      else (parseMembers fuel (c :: rest)).map (fun p => (JValue.obj p.1, p.2))

/-- Parse one `"key": value` member and the members after it; the input
ends at the closing brace, which is consumed. -/
def parseMembers : Nat → List Char → Option (List (String × JValue) × List Char)
  | 0, _ => none
  | fuel + 1, cs =>
    match skipWs cs with
    | [] => none
    | c :: rest =>
      if c = quoteChar then
        match parseStringBody rest with
        | none => none
        | some (key, afterKey) =>
          match skipWs afterKey with
          | ':' :: afterColon =>
            match parseValue fuel afterColon with
            | none => none
            | some (v, afterVal) =>
              match skipWs afterVal with
              | ',' :: afterComma =>
                (parseMembers fuel afterComma).map
                  (fun p => ((String.mk key, v) :: p.1, p.2))
              | d :: afterBrace =>
                if d = rbraceChar then some ([(String.mk key, v)], afterBrace) else none
              | [] => none
          | _ => none
      else none

/-- Parse the inside of an array, just after the opening bracket. -/
def parseItemsStart : Nat → List Char → Option (JValue × List Char)
  | 0, _ => none
  | fuel + 1, cs =>
    match skipWs cs with
    | [] => none
    | c :: rest =>
      if c = ']' then some (JValue.arr [], rest)
      else (parseItems fuel (c :: rest)).map (fun p => (JValue.arr p.1, p.2))

/-- Parse one array element and the elements after it; the closing bracket
is consumed. -/
def parseItems : Nat → List Char → Option (List JValue × List Char)
  | 0, _ => none
  | fuel + 1, cs =>
    match parseValue fuel cs with
    | none => none
    | some (v, afterVal) =>
      match skipWs afterVal with
      | ',' :: afterComma => (parseItems fuel afterComma).map (fun p => (v :: p.1, p.2))
      | ']' :: afterBracket => some ([v], afterBracket)
      | _ => none

end

/-- `json.loads`: parse a complete JSON document (no trailing input). -/
def parseJson (s : String) : Option JValue :=
  match parseValue (s.length + 1) s.toList with
  | some (v, rest) => if (skipWs rest).isEmpty then some v else none
  | none => none

/-! ### Regex extraction

The classifier extracts the first match of the pattern (opening brace,
one or more non-closing-brace characters, closing brace) from the model
response, as `re.search` does. -/

/-- Characters strictly before the first closing brace, or `none` if the
remaining input has no closing brace. -/
def takeToBrace : List Char → Option (List Char)
  | [] => none
  | c :: cs =>
    if c = rbraceChar then some [] else (takeToBrace cs).map (fun run => c :: run)

/-- Leftmost match of the brace-delimited pattern. -/
def extractJsonChars : List Char → Option (List Char)
  | [] => none
  | c :: cs =>
    if c = lbraceChar then
      match takeToBrace cs with
      | some run =>
        if run.isEmpty then extractJsonChars cs
        else some (lbraceChar :: run ++ [rbraceChar])
      | none => extractJsonChars cs
    else extractJsonChars cs

/-- `re.search` of the JSON-object pattern over the model response. -/
def extractJson (s : String) : Option String :=
  (extractJsonChars s.toList).map (fun cs => String.mk cs)

/-- Python `dict.get k default` on a decoded object; the decoder keeps every
member, so lookup takes the last occurrence of a duplicated key (Python
keeps the last at decode time). -/
def jget (members : List (String × JValue)) (k : String) (d : JValue) : JValue :=
  match members.reverse.find? (fun p => p.1 == k) with
  | some p => p.2
  | none => d

/-! ### The keyword gate of `AdaptiveImageService.decide_image_source`

The five keyword lists are transcribed verbatim (duplicates across lists
included, exactly as the Python lists concatenate). -/

/-- Physics keywords. -/
def physics_keywords : List String := [
  "pendulum", "oscillation", "wave", "frequency", "amplitude", "period",
  "momentum", "velocity", "acceleration", "force", "gravity", "friction",
  "energy", "kinetic", "potential", "thermodynamics", "heat", "temperature",
  "pressure", "volume", "gas", "molecule", "atom", "particle", "electron",
  "photon", "quantum", "relativity", "electromagnetic", "magnetic", "electric",
  "circuit", "resistance", "voltage", "current", "capacitor", "inductor",
  "lens", "mirror", "optics", "refraction", "reflection", "diffraction",
  "formula", "equation", "physics", "mechanics", "dynamics", "statics",
  "sinusoidal", "harmonic", "spring", "mass", "weight", "newton", "joule",
  "watt", "hertz", "wavelength", "spectrum", "radiation", "nuclear"]

/-- Chemistry keywords. -/
def chemistry_keywords : List String := [
  "molecule", "atom", "chemical", "reaction", "compound", "element",
  "periodic", "electron", "proton", "neutron", "ion", "bond", "covalent",
  "ionic", "hydrogen", "oxygen", "carbon", "nitrogen", "sulfur",
  "acid", "base", "ph", "oxidation", "reduction", "catalyst",
  "organic", "inorganic", "polymer", "protein", "enzyme", "dna", "rna",
  "chemistry", "molecular", "crystal", "solution", "concentration",
  "molar", "molarity", "titration", "equilibrium"]

/-- Biology keywords. -/
def biology_keywords : List String := [
  "cell", "dna", "rna", "gene", "chromosome", "mitosis", "meiosis",
  "protein", "enzyme", "bacteria", "virus", "organism", "species",
  "evolution", "natural selection", "genetics", "heredity", "mutation",
  "photosynthesis", "respiration", "metabolism", "ecosystem", "biome",
  "anatomy", "physiology", "organ", "tissue", "neuron", "synapse",
  "biology", "biological", "microscope", "specimen", "bacteria",
  "membrane", "nucleus", "cytoplasm", "mitochondria", "chloroplast"]

/-- Math and statistics keywords. -/
def math_keywords : List String := [
  "graph", "chart", "diagram", "formula", "equation", "statistics",
  "percentage", "ratio", "proportion", "function", "derivative", "integral",
  "algebra", "geometry", "trigonometry", "calculus", "probability",
  "distribution", "mean", "median", "deviation", "variance", "correlation",
  "pie chart", "bar chart", "histogram", "scatter", "plot", "axis",
  "coordinate", "vector", "matrix", "theorem", "proof", "calculation"]

/-- Educational and technical keywords. -/
def educational_keywords : List String := [
  "diagram", "schematic", "illustration", "infographic", "model",
  "educational", "classroom", "blackboard", "whiteboard", "textbook",
  "scientific", "technical", "labeled", "annotation", "scheme",
  "structure", "system", "process", "cycle", "flow", "mechanism"]

/-- Concatenation of the five lists, in the order of the source. -/
def all_search_keywords : List String :=
  physics_keywords ++ chemistry_keywords ++ biology_keywords ++
    math_keywords ++ educational_keywords

/-- The comprehension `[kw for kw in all_search_keywords if kw in prompt_lower]`. -/
def matchedKeywords (prompt : String) : List String :=
  all_search_keywords.filter (fun kw => containsSubstr (toLowerPy prompt) kw)

/-! ### `decide_image_source`

The LLM transport (`LLMClient` / `get_model`) is an opaque capability of
the spec; it is modelled by an `Except Unit String` parameter (`.error`
models the call raising, `.ok` a free-form response text).  Every failure
of the inner `try` block, including a JSON decode error and a non-object
decode result (`AttributeError` on `.get`), lands on the common default
return of the source, line 200. -/

/-- `decision not in ["generate", "search"]` coercion of the source
(lines 191-192): Python compares the decoded value to the two strings. -/
def decisionCoerce (d : JValue) : String :=
  match d with
  | .str s => if s = "generate" ∨ s = "search" then s else "search"
  | _ => "search"

/-- The language-model branch of `decide_image_source` (source
lines 172-200). -/
def decideLLM (llm : Except Unit String) : String × JValue :=
  match llm with
  | .error _ => ("search", .str "Defaulting to search due to classification error")
  | .ok response =>
    match extractJson response with
    | none => ("search", .str "Defaulting to search due to classification error")
    | some jtext =>
      match parseJson jtext with
      | some (.obj members) =>
        let decision := jget members "decision" (.str "search")
        let reason := jget members "reason" (.str "Default decision")
        (decisionCoerce decision, reason)
      | _ => ("search", .str "Defaulting to search due to classification error")

/-- `AdaptiveImageService.decide_image_source` (source lines 44-200): the
keyword gate forces `search`; otherwise the model is consulted. -/
def decide_image_source (prompt : String) (llm : Except Unit String) : String × JValue :=
  let matched := matchedKeywords prompt
  if matched.isEmpty then decideLLM llm
  else
    ("search",
      .str ("Scientific/educational content detected: " ++ String.intercalate ", " (matched.take 3)))

/-! ### Candidate model and provider adapters

`ImageAlternative` (services/adaptive_image_service.py lines 18-24), and
the result models of the two standalone clients.  Only the fields the
aggregator reads are kept for the clients. -/

/-- `ImageAlternative`: a single image candidate. -/
structure ImageAlternative where
  url : String
  thumbnail_url : Option String
  source : String
  attribution : Option String
  description : Option String
deriving DecidableEq

/-- Result model of `clients/unsplash_client.py` (fields the aggregator
reads; `source` is the fixed `"unsplash"` tag of the client model). -/
structure UnsplashImage where
  url : String
  thumbnail_url : String
  description : Option String
  attribution : String
deriving DecidableEq

/-- Result model of `clients/wikimedia_client.py` (fields the aggregator
reads). -/
structure WikimediaImage where
  url : String
  thumbnail_url : String
  description : Option String
  attribution : String
deriving DecidableEq

/-- The conversion of Unsplash results performed inline in
`search_multiple_sources` (lines 290-298): the `source` tag is set to
`"unsplash"`. -/
def unsplashToAlternative (img : UnsplashImage) : ImageAlternative :=
  { url := img.url, thumbnail_url := some img.thumbnail_url, source := "unsplash",
    attribution := some img.attribution, description := img.description }

/-- The conversion of Wikimedia results (lines 300-309). -/
def wikimediaToAlternative (img : WikimediaImage) : ImageAlternative :=
  { url := img.url, thumbnail_url := some img.thumbnail_url, source := "wikimedia",
    attribution := some img.attribution, description := img.description }

/-! ### The aggregator `AdaptiveImageService.search_multiple_sources`

The four adapter tasks run under `asyncio.gather(..., return_exceptions=True)`;
a task's outcome is modelled by `Except Unit (List _)` (`.error` models the
task raising, which `isinstance(result, list)` then filters out). -/

/-- An adapter outcome that contributes nothing: it raised, or returned no
candidates. -/
def emptyOutcome {α : Type} (r : Except Unit (List α)) : Prop :=
  r = .error () ∨ r = .ok []

/-- Replace a raised outcome by an empty result list. -/
def outcomeOrEmpty {α : Type} (r : Except Unit (List α)) : Except Unit (List α) :=
  match r with
  | .ok l => .ok l
  | .error _ => .ok []

/-- `all_images` after the four `isinstance` blocks (lines 287-317): the
successful adapters' candidates, in adapter order. -/
def collectImages (r0 : Except Unit (List UnsplashImage))
    (r1 : Except Unit (List WikimediaImage))
    (r2 r3 : Except Unit (List ImageAlternative)) : List ImageAlternative :=
  (match r0 with
    | .ok l => l.map unsplashToAlternative
    | .error _ => [])
  ++ (match r1 with
    | .ok l => l.map wikimediaToAlternative
    | .error _ => [])
  ++ (match r2 with
    | .ok l => l
    | .error _ => [])
  ++ (match r3 with
    | .ok l => l
    | .error _ => [])

/-- The fixed priority order of the interleave loop (line 330). -/
def sourcePriority : List String := ["unsplash", "pexels", "wikimedia", "pixabay"]

/-- `by_source[s]`: the candidates of source `s`, in `all_images` order
(`s` is a key of the dict iff this list is non-empty). -/
def groupOf (imgs : List ImageAlternative) (s : String) : List ImageAlternative :=
  imgs.filter (fun x => x.source == s)

/-- The distinct sources occurring in `all_images` (the key set of
`by_source`; only the set matters below, the fold of `max` over the group
sizes is order-insensitive). -/
def sourcesOf (imgs : List ImageAlternative) : List String :=
  (imgs.map (fun x => x.source)).dedup

/-- `max(len(v) for v in by_source.values()) if by_source else 0`. -/
def maxGroupLen (imgs : List ImageAlternative) : Nat :=
  ((sourcesOf imgs).map (fun s => (groupOf imgs s).length)).foldr max 0

/-- One pass of the inner loop (lines 330-332): visit the sources in the
fixed priority order and take each group's `i`-th candidate, if present. -/
def interleaveStep (imgs : List ImageAlternative) (i : Nat) : List ImageAlternative :=
  sourcePriority.filterMap (fun s => (groupOf imgs s)[i]?)

/-- The interleaved list (lines 327-332), before the final truncation. -/
def interleaveImages (imgs : List ImageAlternative) : List ImageAlternative :=
  (List.range (maxGroupLen imgs)).flatMap (interleaveStep imgs)

/-- `AdaptiveImageService.search_multiple_sources` (lines 266-334), as a
function of the four adapter outcomes; `return interleaved[:10]`. -/
def search_multiple_sources (r0 : Except Unit (List UnsplashImage))
    (r1 : Except Unit (List WikimediaImage))
    (r2 r3 : Except Unit (List ImageAlternative)) : List ImageAlternative :=
  (interleaveImages (collectImages r0 r1 r2 r3)).take 10

/-! ### `ImagePrompt` (models/image_prompt.py) -/

/-- `ImagePrompt`. -/
structure ImagePrompt where
  prompt : String
  theme_prompt : Option String
  language : String
deriving DecidableEq

/-- `ImagePrompt.get_image_prompt`: the theme is appended only when
`with_theme` is passed and `theme_prompt` is truthy (neither `None` nor
the empty string). -/
def ImagePrompt.get_image_prompt (p : ImagePrompt) (with_theme : Bool) : String :=
  match with_theme, p.theme_prompt with
  | true, some t => if t = "" then p.prompt else p.prompt ++ ", " ++ t
  | _, _ => p.prompt

/-! ### `ImageGenerationService` (services/image_generation_service.py)

Configuration flags (environment-driven selection in
`utils/image_provider`, `OPENAI_AGENT_URL`) and effects are explicit:

* `agentSearch` is the outcome of `search_via_openai_agent` as a function
  of the query it is given.  That coroutine's whole body sits under
  `try/except` returning `[]`, so it returns a list and never raises; its
  internals (agent call, Brave/Wikimedia/... fallback chain) are collapsed
  into the function value.
* `image_gen_func` is the provider coroutine selected once at startup
  (`get_image_gen_func`); `.error` models it raising, `.ok path` its
  returned path (the empty string models a falsy return).  The
  `output_directory` argument threaded to non-stock providers does not
  change the shape of the outcome and is absorbed into the function value.
* `pathExists` is `os.path.exists`. -/

/-- Startup configuration of the generation service. -/
structure GenConfig where
  is_image_generation_disabled : Bool
  is_pixels_selected : Bool
  is_pixabay_selected : Bool
  agent_url : Option String
deriving DecidableEq

/-- External effects consumed by `generate_image`. -/
structure GenEffects where
  agentSearch : String → List String
  image_gen_func : Option (String → Except Unit String)
  pathExists : String → Bool

/-- `is_stock_provider_selected`. -/
def is_stock_provider_selected (cfg : GenConfig) : Bool :=
  cfg.is_pixels_selected || cfg.is_pixabay_selected

/-- `ImageGenerationService.search_multiple_sources` (lines 437-450): agent
search when `OPENAI_AGENT_URL` is configured, else empty. -/
def gen_search_multiple_sources (cfg : GenConfig) (eff : GenEffects) (query : String) :
    List String :=
  match cfg.agent_url with
  | some _ => eff.agentSearch query
  | none => []

/-- Result of `generate_image`: a bare URL/path string, or an `ImageAsset`
(of which only `path` is read downstream; the `extras` dict is dropped). -/
inductive GenResult where
  | pathStr (url : String)
  | asset (path : String)
deriving DecidableEq

/-- `ImageGenerationService.generate_image` (lines 452-507).  Every failure
path of the source returns a value (the inner `try/except` returns the
placeholder path), so the embedding is total: the function never raises. -/
def generate_image (cfg : GenConfig) (eff : GenEffects) (p : ImagePrompt) : GenResult :=
  if cfg.is_image_generation_disabled then .pathStr "/static/images/placeholder.jpg"
  else
    let image_prompt := p.get_image_prompt (!(is_stock_provider_selected cfg))
    match gen_search_multiple_sources cfg eff image_prompt with
    | u :: _ => .asset u
    | [] =>
      match eff.image_gen_func with
      | none => .pathStr "/static/images/placeholder.jpg"
      | some f =>
        match f image_prompt with
        | .error _ => .pathStr "/static/images/placeholder.jpg"
        | .ok image_path =>
          if image_path = "" then .pathStr "/static/images/placeholder.jpg"
          else if image_path.startsWith "http" then .pathStr image_path
          else if eff.pathExists image_path then .asset image_path
          else .pathStr "/static/images/placeholder.jpg"

/-! ### The top-level entry point `AdaptiveImageService.get_adaptive_image`
(lines 336-403).

`decide_image_source` and the four adapter outcomes are those modelled
above.  The source wraps the generation call in `try/except` producing a
`source="placeholder"` candidate, but `generate_image` returns on every
failure path instead of raising (see above), so that arm is unreachable
and the embedding has no branch for it. -/

/-- Outcomes of the four provider adapters of the adaptive service, plus
the language-model transport. -/
structure AdaptiveEffects where
  llm : Except Unit String
  r_unsplash : Except Unit (List UnsplashImage)
  r_wikimedia : Except Unit (List WikimediaImage)
  r_pexels : Except Unit (List ImageAlternative)
  r_pixabay : Except Unit (List ImageAlternative)

/-- `AdaptiveImageResponse`. -/
structure AdaptiveImageResponse where
  decision : String
  reason : JValue
  images : List ImageAlternative

/-- The single candidate built from a generation result (lines 373-388):
both the bare-string and the asset case are wrapped with `source="ai"`. -/
def generatedAlternative (prompt : String) (r : GenResult) : ImageAlternative :=
  match r with
  | .pathStr s =>
    { url := s, thumbnail_url := none, source := "ai",
      attribution := some "AI Generated", description := some prompt }
  | .asset path =>
    { url := path, thumbnail_url := none, source := "ai",
      attribution := some "AI Generated", description := some prompt }

/-- `AdaptiveImageService.get_adaptive_image`. -/
def get_adaptive_image (cfg : GenConfig) (gen : GenEffects) (eff : AdaptiveEffects)
    (prompt language : String) : AdaptiveImageResponse :=
  let d0 := decide_image_source prompt eff.llm
  if d0.1 = "search" then
    let searched := search_multiple_sources eff.r_unsplash eff.r_wikimedia
      eff.r_pexels eff.r_pixabay
    if searched.isEmpty then
      { decision := "generate",
        reason := .str "Search returned no results, falling back to AI generation",
        images := [generatedAlternative prompt
          (generate_image cfg gen { prompt := prompt, theme_prompt := none, language := language })] }
    else { decision := d0.1, reason := d0.2, images := searched }
  else
    { decision := d0.1, reason := d0.2,
      images := [generatedAlternative prompt
        (generate_image cfg gen { prompt := prompt, theme_prompt := none, language := language })] }

/-! ### The ComfyUI job poller
(`ImageGenerationService._wait_for_comfyui_completion`, lines 724-772)

Poll responses of the history endpoint are modelled structurally: a status
code, and an optional decoded body (`none` models `response.json()`
raising).  The body maps prompt ids to execution records; an execution
record's `status` object carries `status.get("completed", False)` as a
`Bool` and the presence of the `"error"` key; the `outputs` map is kept as
an association list (absent ≡ empty, the source tests presence *and*
truthiness together).

Time passes only in `await asyncio.sleep(poll_interval)`, so the elapsed
time checked at the top of iteration `k` is `k * interval`; the `k`-th GET
is `polls k`. -/

/-- A node's entry in the `outputs` map (only the `images` list is read
downstream). -/
structure ComfyNodeOutput where
  images : List String
deriving DecidableEq

/-- The `status` object of an execution record. -/
structure ComfyStatus where
  completed : Bool
  error : Option String
deriving DecidableEq

/-- One execution record of the history body. -/
structure ComfyExecution where
  status : Option ComfyStatus
  outputs : List (String × ComfyNodeOutput)
deriving DecidableEq

/-- One poll response. -/
structure ComfyPollResponse where
  status_code : Nat
  body : Option (List (String × ComfyExecution))

/-- Result of the polling loop. -/
inductive ComfyWaitResult where
  | completed (data : List (String × ComfyExecution))
  | execError (err : String)
  | timedOut (elapsed : Nat)
deriving DecidableEq

/-- The decision the loop body takes on one poll response: `none` means
"keep polling" (non-200 status, undecodable body, id not yet in the
history, or an inconclusive record). -/
def comfyPollStep (resp : ComfyPollResponse) (pid : String) : Option ComfyWaitResult :=
  if resp.status_code ≠ 200 then none
  else
    match resp.body with
    | none => none
    | some data =>
      match data.find? (fun p => p.1 == pid) with
      | none => none
      | some entry =>
        match entry.2.status with
        | some st =>
          if st.completed then some (.completed data)
          else
            match st.error with
            | some e => some (.execError e)
            | none => if entry.2.outputs.isEmpty then none else some (.completed data)
        | none => if entry.2.outputs.isEmpty then none else some (.completed data)

/-- The polling loop from iteration `k` on.  The `fuel` argument only makes
the recursion structural; for `1 ≤ interval` the timeout check fires
strictly before the fuel used below runs out (the fuel-exhaustion arm is
unreachable, see `C6`). -/
def comfyWaitFrom (polls : Nat → ComfyPollResponse) (pid : String)
    (timeout interval : Nat) : Nat → Nat → ComfyWaitResult
  | k, 0 => .timedOut (k * interval)
  | k, fuel + 1 =>
    if k * interval > timeout then .timedOut (k * interval)
    else
      match comfyPollStep (polls k) pid with
      | some r => r
      | none => comfyWaitFrom polls pid timeout interval (k + 1) fuel

/-- `_wait_for_comfyui_completion` over a poll-response sequence; the
source defaults are `timeout = 300`, `interval = 4`. -/
def comfyWait (polls : Nat → ComfyPollResponse) (pid : String)
    (timeout interval : Nat) : ComfyWaitResult :=
  comfyWaitFrom polls pid timeout interval 0 (timeout + 2)

/-! ### Workflow injection
(`ImageGenerationService._inject_prompt_into_workflow`, lines 675-696)

A workflow is an association list of node ids to nodes; a node has the
optional `_meta.title` and an optional `inputs` map.  The loop writes the
prompt into the first node whose lower-cased title is `"input prompt"`
*and* whose `inputs` map has a `"text"` key; a title-matching node without
such an input is skipped (the loop continues past it). -/

/-- A workflow node (the fields the injection reads). -/
structure WorkflowNode where
  meta_title : Option String
  inputs : Option (List (String × JValue))

/-- `meta.get("title", "").lower() == "input prompt"`. -/
def nodeTitleMatches (n : WorkflowNode) : Bool :=
  toLowerPy (n.meta_title.getD "") == "input prompt"

/-- `"inputs" in node_data and "text" in node_data["inputs"]`. -/
def nodeHasTextInput (n : WorkflowNode) : Bool :=
  match n.inputs with
  | some l => l.any (fun p => p.1 == "text")
  | none => false

/-- A node the loop injects into. -/
def nodeQualifies (n : WorkflowNode) : Bool :=
  nodeTitleMatches n && nodeHasTextInput n

/-- `node_data["inputs"]["text"] = prompt`. -/
def setTextInput (n : WorkflowNode) (prompt : String) : WorkflowNode :=
  { n with inputs := n.inputs.map (fun l =>
      l.map (fun p => if p.1 == "text" then (p.1, JValue.str prompt) else p)) }

/-- `_inject_prompt_into_workflow`; `.error` is the `ValueError` raised when
the loop finds no node to inject into (the `ConfigurationError` of the
design taxonomy). -/
def inject_prompt_into_workflow (wf : List (String × WorkflowNode)) (prompt : String) :
    Except String (List (String × WorkflowNode)) :=
  match wf with
  | [] => .error "Could not find a node with title Input Prompt in the workflow"
  | (nid, n) :: rest =>
    if nodeQualifies n then .ok ((nid, setTextInput n prompt) :: rest)
    else
      match inject_prompt_into_workflow rest prompt with
      | .ok rest2 => .ok ((nid, n) :: rest2)
      | .error e => .error e

/-! ## Claims -/

/-- C1 -- For every prompt whose lower-cased text contains at least one
keyword (as a substring) from the fixed educational keyword sets,
`decide_image_source` returns the decision `"search"` without invoking the
language-model path (the result is the same for every possible LLM
outcome), with a reason that names up to 3 of the matched terms. -/
theorem C1_keyword_gate_forces_search (prompt : String)
    (h : ∃ kw ∈ all_search_keywords, containsSubstr (toLowerPy prompt) kw = true) :
    (∀ llm : Except Unit String,
      decide_image_source prompt llm =
        ("search", .str ("Scientific/educational content detected: " ++
          String.intercalate ", " ((matchedKeywords prompt).take 3)))) ∧
    ((matchedKeywords prompt).take 3).length ≤ 3 ∧
    (∀ kw ∈ (matchedKeywords prompt).take 3, kw ∈ matchedKeywords prompt) := by
  obtain ⟨kw, hmem, hsub⟩ := h
  have hmem2 : kw ∈ matchedKeywords prompt := by
    unfold matchedKeywords
    exact List.mem_filter.mpr ⟨hmem, hsub⟩
  have hne : (matchedKeywords prompt).isEmpty = false := by
    cases hmk : matchedKeywords prompt with
    | nil => rw [hmk] at hmem2; cases hmem2
    | cons a l => rfl
  refine ⟨fun llm => ?_, List.length_take_le _ _, fun kw2 h2 => List.take_subset _ _ h2⟩
  simp only [decide_image_source, hne, Bool.false_eq_true, if_false]

/-- Witness for C1: the scenario prompt of the spec. -/
theorem C1_witness :
    (∃ kw ∈ all_search_keywords,
      containsSubstr (toLowerPy "pendulum oscillation period") kw = true) ∧
    decide_image_source "pendulum oscillation period" (.error ()) =
      ("search",
        .str "Scientific/educational content detected: pendulum, oscillation, period") := by
  have h : ∃ kw ∈ all_search_keywords,
      containsSubstr (toLowerPy "pendulum oscillation period") kw = true :=
    ⟨"pendulum", by decide, by decide⟩
  refine ⟨h, ?_⟩
  rw [(C1_keyword_gate_forces_search "pendulum oscillation period" h).1 (.error ())]
  have h3 : (matchedKeywords "pendulum oscillation period").take 3 =
      ["pendulum", "oscillation", "period"] := by decide
  rw [h3]
  have h4 : "Scientific/educational content detected: " ++
      String.intercalate ", " ["pendulum", "oscillation", "period"] =
      "Scientific/educational content detected: pendulum, oscillation, period" := by decide
  rw [h4]

/-- `decision not in ["generate", "search"]` forces `"search"`. -/
theorem decisionCoerce_default (d : JValue) (h1 : d ≠ .str "generate")
    (h2 : d ≠ .str "search") : decisionCoerce d = "search" := by
  cases d with
  | str s =>
    by_cases hs : s = "generate" ∨ s = "search"
    · rcases hs with hs | hs <;> subst hs
      · exact absurd rfl h1
      · exact absurd rfl h2
    · simp [decisionCoerce, hs]
  | num n => rfl
  | bool b => rfl
  | null => rfl
  | arr l => rfl
  | obj m => rfl

/-- C4 -- For every language-model response that is malformed, non-JSON, or
fails to arrive (the call raises), `decide_image_source` returns the
decision `"search"` with a non-empty reason; and whenever the parsed
decision value is outside `{generate, search}`, it is coerced to
`"search"`. -/
theorem C4_llm_failures_default_to_search (prompt : String) (llm : Except Unit String)
    (hkw : matchedKeywords prompt = []) :
    (llm = .error () →
      decide_image_source prompt llm =
        ("search", .str "Defaulting to search due to classification error")) ∧
    (∀ s, llm = .ok s → extractJson s = none →
      decide_image_source prompt llm =
        ("search", .str "Defaulting to search due to classification error")) ∧
    (∀ s j, llm = .ok s → extractJson s = some j → parseJson j = none →
      decide_image_source prompt llm =
        ("search", .str "Defaulting to search due to classification error")) ∧
    (∀ s j m, llm = .ok s → extractJson s = some j → parseJson j = some (.obj m) →
      jget m "decision" (.str "search") ≠ .str "generate" →
      jget m "decision" (.str "search") ≠ .str "search" →
      (decide_image_source prompt llm).1 = "search") ∧
    "Defaulting to search due to classification error" ≠ "" := by
  have hd : decide_image_source prompt llm = decideLLM llm := by
    simp [decide_image_source, hkw]
  refine ⟨?_, ?_, ?_, ?_, by decide⟩
  · rintro rfl; rw [hd]; rfl
  · rintro s rfl hex; rw [hd]; simp [decideLLM, hex]
  · rintro s j rfl hex hpj; rw [hd]; simp [decideLLM, hex, hpj]
  · rintro s j m rfl hex hpj h1 h2
    rw [hd]
    simp only [decideLLM, hex, hpj]
    exact decisionCoerce_default _ h1 h2

/-- Witness for C4: a raising call, and a response whose decision value is
outside the two allowed strings. -/
theorem C4_witness :
    decide_image_source "zq" (.error ()) =
      ("search", .str "Defaulting to search due to classification error") ∧
    (decide_image_source "zq"
        (.ok "garbage \x7b\"decision\": \"dance\"\x7d tail")).1 = "search" := by
  have hkw : matchedKeywords "zq" = [] := by decide
  constructor
  · exact (C4_llm_failures_default_to_search "zq" (.error ()) hkw).1 rfl
  · refine (C4_llm_failures_default_to_search "zq"
      (.ok "garbage \x7b\"decision\": \"dance\"\x7d tail") hkw).2.2.2.1
      "garbage \x7b\"decision\": \"dance\"\x7d tail"
      "\x7b\"decision\": \"dance\"\x7d"
      [("decision", JValue.str "dance")] rfl (by decide) rfl ?_ ?_
    · intro h
      exact absurd (JValue.str.inj h) (by decide)
    · intro h
      exact absurd (JValue.str.inj h) (by decide)

/-- The aggregator on four contributing-nothing outcomes: the empty list. -/
theorem search_multiple_sources_all_empty (r0 : Except Unit (List UnsplashImage))
    (r1 : Except Unit (List WikimediaImage)) (r2 r3 : Except Unit (List ImageAlternative))
    (h0 : emptyOutcome r0) (h1 : emptyOutcome r1) (h2 : emptyOutcome r2)
    (h3 : emptyOutcome r3) : search_multiple_sources r0 r1 r2 r3 = [] := by
  rcases h0 with h0 | h0 <;> rcases h1 with h1 | h1 <;> rcases h2 with h2 | h2 <;>
    rcases h3 with h3 | h3 <;> subst h0 <;> subst h1 <;> subst h2 <;> subst h3 <;> rfl

/-- C5 -- For every combination of adapter outcomes (any subset of the four
provider adapters raising exceptions, the rest returning lists),
`search_multiple_sources` treats each raising adapter as having returned an
empty result (the result is unchanged when every raised outcome is replaced
by an empty list, so the other adapters' candidates are still included),
and when all adapters raise or return empty it returns an empty list.  The
embedding is a total function: no outcome combination raises. -/
theorem C5_adapter_isolation (r0 : Except Unit (List UnsplashImage))
    (r1 : Except Unit (List WikimediaImage))
    (r2 r3 : Except Unit (List ImageAlternative)) :
    search_multiple_sources r0 r1 r2 r3 =
      search_multiple_sources (outcomeOrEmpty r0) (outcomeOrEmpty r1)
        (outcomeOrEmpty r2) (outcomeOrEmpty r3) ∧
    (emptyOutcome r0 → emptyOutcome r1 → emptyOutcome r2 → emptyOutcome r3 →
      search_multiple_sources r0 r1 r2 r3 = []) := by
  constructor
  · cases r0 <;> cases r1 <;> cases r2 <;> cases r3 <;> rfl
  · exact search_multiple_sources_all_empty r0 r1 r2 r3

/-- Witness for C5: every adapter raises (or returns nothing). -/
theorem C5_witness :
    search_multiple_sources (.error ()) (.error ()) (.ok []) (.error ()) = [] :=
  (C5_adapter_isolation (.error ()) (.error ()) (.ok []) (.error ())).2
    (Or.inl rfl) (Or.inl rfl) (Or.inr rfl) (Or.inl rfl)

/-! ## C2: theme composition and the search step of `generate_image` -/

/-- Configuration for the C2 counterexample: generation enabled, a
non-stock provider (neither Pexels nor Pixabay), agent search configured. -/
def c2Config : GenConfig :=
  { is_image_generation_disabled := false, is_pixels_selected := false,
    is_pixabay_selected := false, agent_url := some "http://agent" }

/-- An agent-search outcome that answers differently on the literal and the
theme-composed prompt, making the query observable. -/
def c2Search : String → List String := fun q =>
  if q = "castle, watercolor style" then ["themed.jpg"]
  else if q = "castle" then ["literal.jpg"]
  else []

/-- A second agent-search outcome agreeing with `c2Search` on the composed
prompt only. -/
def c2SearchB : String → List String := fun q =>
  if q = "castle, watercolor style" then ["themed.jpg"] else ["other.jpg"]

/-- Effects for the C2 counterexample. -/
def c2Effects : GenEffects :=
  { agentSearch := c2Search, image_gen_func := none, pathExists := fun _ => false }

/-- A themed prompt. -/
def c2Prompt : ImagePrompt :=
  { prompt := "castle", theme_prompt := some "watercolor style", language := "English" }

/-- C2 counterexample -- the claim "a search step receives the literal
prompt text without the theme appended" is false: under a non-stock
configuration, `generate_image` hands the agent search the theme-composed
prompt.  The search distinguishes the two queries, and the result is the
one for the composed prompt, not the one for the literal prompt. -/
theorem C2_counterexample :
    c2Prompt.get_image_prompt false = "castle" ∧
    c2Effects.agentSearch "castle" = ["literal.jpg"] ∧
    generate_image c2Config c2Effects c2Prompt = .asset "themed.jpg" ∧
    GenResult.asset "themed.jpg" ≠ GenResult.asset "literal.jpg" := by
  refine ⟨rfl, ?_, rfl, by decide⟩
  decide

/-- C2 (amended) -- The theme is appended to the prompt text exactly when
the caller requests "with theme" composition and the theme is non-empty;
`generate_image` requests it whenever a non-stock provider is selected
(`with_theme = not is_stock_provider_selected()`), and the composed text is
also the query its agent-search step receives: the outcome of
`generate_image` depends on the search function only through its value at
the composed prompt. -/
theorem C2_theme_composition (p : ImagePrompt) :
    (p.get_image_prompt false = p.prompt) ∧
    (∀ t, p.theme_prompt = some t → t ≠ "" →
      p.get_image_prompt true = p.prompt ++ ", " ++ t) ∧
    (p.theme_prompt = none ∨ p.theme_prompt = some "" →
      p.get_image_prompt true = p.prompt) ∧
    (∀ (cfg : GenConfig) (s₁ s₂ : String → List String) g pe,
      s₁ (p.get_image_prompt (!(is_stock_provider_selected cfg))) =
        s₂ (p.get_image_prompt (!(is_stock_provider_selected cfg))) →
      generate_image cfg ⟨s₁, g, pe⟩ p = generate_image cfg ⟨s₂, g, pe⟩ p) := by
  refine ⟨?_, ?_, ?_, ?_⟩
  · cases h : p.theme_prompt <;> simp [ImagePrompt.get_image_prompt, h]
  · intro t ht hne; simp [ImagePrompt.get_image_prompt, ht, hne]
  · rintro (h | h) <;> simp [ImagePrompt.get_image_prompt, h]
  · intro cfg s₁ s₂ g pe hq
    unfold generate_image gen_search_multiple_sources
    cases hd : cfg.is_image_generation_disabled
    · cases hau : cfg.agent_url <;> simp [hau, hq]
    · rfl

/-- Witness for C2 (amended): the theme-appending equations at the concrete
prompt, and the dependence of `generate_image` on the search function only
at the composed query -- two different search functions agreeing there give
the same result. -/
theorem C2_theme_composition_witness :
    c2Prompt.get_image_prompt true = "castle, watercolor style" ∧
    generate_image c2Config ⟨c2Search, none, fun _ => false⟩ c2Prompt =
      generate_image c2Config ⟨c2SearchB, none, fun _ => false⟩ c2Prompt := by
  have H := C2_theme_composition c2Prompt
  constructor
  · rw [H.2.1 "watercolor style" rfl (by decide)]; rfl
  · exact H.2.2.2 c2Config c2Search c2SearchB none (fun _ => false) (by decide)

/-! ## C3: the top-level entry point under failures -/

/-- All four adaptive-service adapters raise or return nothing. -/
def adaptersAllEmpty (eff : AdaptiveEffects) : Prop :=
  emptyOutcome eff.r_unsplash ∧ emptyOutcome eff.r_wikimedia ∧
    emptyOutcome eff.r_pexels ∧ emptyOutcome eff.r_pixabay

/-- The generation provider is absent, or raises on every prompt. -/
def genAlwaysRaises (gen : GenEffects) : Prop :=
  gen.image_gen_func = none ∨
    ∃ f, gen.image_gen_func = some f ∧ ∀ q, f q = .error ()

/-- C3 (amended) -- `get_adaptive_image` is total (the embedding returns a
response for every combination of effect outcomes) and its images list is
never empty; when search yields nothing and generation also fails, the
last-resort candidate carries the fixed placeholder url
`"/static/images/placeholder.jpg"` but is tagged `source = "ai"` (with
attribution "AI Generated"): `generate_image` swallows its own failures
and returns the placeholder path, which the adaptive layer wraps as an AI
result; the `source = "placeholder"` arm of the source is unreachable. -/
theorem C3_never_empty_and_placeholder_url (cfg : GenConfig) (gen : GenEffects)
    (eff : AdaptiveEffects) (prompt language : String) :
    (get_adaptive_image cfg gen eff prompt language).images ≠ [] ∧
    (adaptersAllEmpty eff → cfg.agent_url = none → genAlwaysRaises gen →
      (get_adaptive_image cfg gen eff prompt language).images =
        [{ url := "/static/images/placeholder.jpg", thumbnail_url := none,
           source := "ai", attribution := some "AI Generated",
           description := some prompt }]) := by
  constructor
  · simp only [get_adaptive_image]
    split
    · split
      · simp
      · next h => simpa [List.isEmpty_iff] using h
    · simp
  · intro hA hAg hG
    have hsearch : search_multiple_sources eff.r_unsplash eff.r_wikimedia
        eff.r_pexels eff.r_pixabay = [] :=
      search_multiple_sources_all_empty _ _ _ _ hA.1 hA.2.1 hA.2.2.1 hA.2.2.2
    have hgen : generate_image cfg gen
        { prompt := prompt, theme_prompt := none, language := language } =
        .pathStr "/static/images/placeholder.jpg" := by
      unfold generate_image gen_search_multiple_sources
      cases hd : cfg.is_image_generation_disabled
      · rw [hAg]
        rcases hG with hf | ⟨f, hf, herr⟩
        · simp [hf]
        · simp [hf, herr]
      · rfl
    simp only [get_adaptive_image]
    split
    · rw [hsearch, hgen]
      simp [generatedAlternative]
    · rw [hgen]
      simp [generatedAlternative]

/-- Configuration for the C3 counterexample: generation enabled, non-stock,
no agent. -/
def c3Config : GenConfig :=
  { is_image_generation_disabled := false, is_pixels_selected := false,
    is_pixabay_selected := false, agent_url := none }

/-- Effects for the C3 counterexample: the selected provider raises. -/
def c3Gen : GenEffects :=
  { agentSearch := fun _ => [], image_gen_func := some (fun _ => .error ()),
    pathExists := fun _ => false }

/-- Adaptive effects for the C3 counterexample: the LLM call raises, all
four adapters raise. -/
def c3Eff : AdaptiveEffects :=
  { llm := .error (), r_unsplash := .error (), r_wikimedia := .error (),
    r_pexels := .error (), r_pixabay := .error () }

/-- C3 counterexample -- the claim names `source = "placeholder"` for the
last-resort candidate, but with search empty and the generation provider
raising, the response's only candidate has the placeholder url tagged
`source = "ai"`: no candidate with `source = "placeholder"` occurs. -/
theorem C3_counterexample :
    (∃ f, c3Gen.image_gen_func = some f ∧ f "zq" = .error ()) ∧
    (get_adaptive_image c3Config c3Gen c3Eff "zq" "English").images =
      [{ url := "/static/images/placeholder.jpg", thumbnail_url := none,
         source := "ai", attribution := some "AI Generated",
         description := some "zq" }] ∧
    ∀ img ∈ (get_adaptive_image c3Config c3Gen c3Eff "zq" "English").images,
      img.source ≠ "placeholder" := by
  have he : (get_adaptive_image c3Config c3Gen c3Eff "zq" "English").images =
      [{ url := "/static/images/placeholder.jpg", thumbnail_url := none,
         source := "ai", attribution := some "AI Generated",
         description := some "zq" }] := by
    have hkw : (matchedKeywords "zq").isEmpty = true := by decide
    simp only [get_adaptive_image, decide_image_source, hkw]
    rfl
  refine ⟨⟨fun _ => .error (), rfl, rfl⟩, he, ?_⟩
  intro img hmem
  rw [he] at hmem
  rcases List.mem_singleton.mp hmem with rfl
  decide

/-- Witness for C3 (amended): the all-failing concrete configuration. -/
theorem C3_witness :
    (get_adaptive_image c3Config c3Gen c3Eff "zq" "English").images ≠ [] ∧
    (get_adaptive_image c3Config c3Gen c3Eff "zq" "English").images =
      [{ url := "/static/images/placeholder.jpg", thumbnail_url := none,
         source := "ai", attribution := some "AI Generated",
         description := some "zq" }] := by
  have H := C3_never_empty_and_placeholder_url c3Config c3Gen c3Eff "zq" "English"
  exact ⟨H.1, H.2 ⟨Or.inl rfl, Or.inl rfl, Or.inl rfl, Or.inl rfl⟩ rfl
    (Or.inr ⟨fun _ => .error (), rfl, fun q => rfl⟩)⟩

/-! ## C6 and C7: the ComfyUI polling loop -/

/-- If the sequence of poll responses is never decisive, the loop reaches
its timeout check: it returns `timedOut e` with `timeout < e`.  The fuel
below is the one `comfyWait` supplies; the invariant `k ≤ timeout + 1`
shows the fuel never runs out first. -/
theorem comfyWaitFrom_times_out (polls : Nat → ComfyPollResponse) (pid : String)
    (timeout interval : Nat) (hint : 1 ≤ interval)
    (hnc : ∀ k, comfyPollStep (polls k) pid = none) :
    ∀ fuel k, k ≤ timeout + 1 → timeout + 2 ≤ k + fuel →
      ∃ e, comfyWaitFrom polls pid timeout interval k fuel = .timedOut e ∧ timeout < e := by
  intro fuel
  induction fuel with
  | zero => intro k hk hsum; omega
  | succ n ih =>
    intro k hk hsum
    by_cases hto : k * interval > timeout
    · exact ⟨k * interval, by simp [comfyWaitFrom, hto], hto⟩
    · have hk2 : k ≤ timeout := by
        have h1 : k * 1 ≤ k * interval := Nat.mul_le_mul_left k hint
        omega
      have step : comfyWaitFrom polls pid timeout interval k (n + 1) =
          comfyWaitFrom polls pid timeout interval (k + 1) n := by
        simp [comfyWaitFrom, hto, hnc k]
      rw [step]
      exact ih (k + 1) (by omega) (by omega)

/-- C6 -- For every poll-response sequence that never reports completion
(nor an execution error: every poll is inconclusive), the poller raises its
timeout error at an elapsed time strictly past the configured timeout —
never before; and a poll response with a non-200 status, or one whose body
cannot be decoded, is inconclusive (ignored and retried), never
escalated. -/
theorem C6_poller_timeout (polls : Nat → ComfyPollResponse) (pid : String)
    (timeout interval : Nat) (hint : 1 ≤ interval)
    (hnc : ∀ k, comfyPollStep (polls k) pid = none) :
    (∃ e, comfyWait polls pid timeout interval = .timedOut e ∧ timeout < e) ∧
    (∀ resp : ComfyPollResponse, resp.status_code ≠ 200 → comfyPollStep resp pid = none) ∧
    (∀ resp : ComfyPollResponse, resp.body = none → comfyPollStep resp pid = none) := by
  refine ⟨?_, ?_, ?_⟩
  · exact comfyWaitFrom_times_out polls pid timeout interval hint hnc
      (timeout + 2) 0 (by omega) (by omega)
  · intro resp h
    simp [comfyPollStep, h]
  · intro resp h
    by_cases h2 : resp.status_code = 200 <;> simp [comfyPollStep, h, h2]

/-- Witness for C6: a server that always answers 500 with no decodable
body; the poll sequence is inconclusive forever and the default
configuration (timeout 300, interval 4) times out past 300. -/
theorem C6_witness :
    ∃ e, comfyWait (fun _ => { status_code := 500, body := none }) "job1" 300 4 =
      .timedOut e ∧ 300 < e :=
  (C6_poller_timeout (fun _ => { status_code := 500, body := none }) "job1" 300 4
    (by decide) (fun k => rfl)).1

/-- A decisive first poll response ends the loop with its result (the
elapsed time 0 is below any timeout). -/
theorem comfyWait_first_decisive (polls : Nat → ComfyPollResponse) (pid : String)
    (r : ComfyWaitResult) (h : comfyPollStep (polls 0) pid = some r) :
    comfyWait polls pid 300 4 = r := by
  simp [comfyWait, comfyWaitFrom, h]

/-- The C7 counterexample execution record: an error in the status, *and* a
non-empty outputs map. -/
def c7Exec : ComfyExecution :=
  { status := some { completed := false, error := some "node failure" },
    outputs := [("9", { images := ["img.png"] })] }

/-- History body for the C7 counterexample. -/
def c7Data : List (String × ComfyExecution) := [("job1", c7Exec)]

/-- Poll sequence for the C7 counterexample. -/
def c7Polls : Nat → ComfyPollResponse :=
  fun _ => { status_code := 200, body := some c7Data }

/-- C7 counterexample -- a poll response whose entry carries a non-empty
outputs map is *not* always treated as completion: when the status also
carries an error field (and no completed flag), the poller raises
`ExecutionError` instead of returning. -/
theorem C7_counterexample :
    c7Exec.outputs ≠ [] ∧
    comfyWait c7Polls "job1" 300 4 = .execError "node failure" ∧
    ∀ d, comfyWait c7Polls "job1" 300 4 ≠ .completed d := by
  have he : comfyWait c7Polls "job1" 300 4 = .execError "node failure" := rfl
  refine ⟨by decide, he, fun d h => ?_⟩
  rw [he] at h
  exact ComfyWaitResult.noConfusion h

/-- C7 (amended) -- For a poll response whose entry for the job id carries a
non-empty outputs map, the poller treats the job as complete and returns —
even with no completed flag — *provided* the status object (if any) carries
no error field; and an explicit error field in the status raises
`ExecutionError` immediately — *provided* the completed flag is not set
(the source checks `completed` first, then `error`, then `outputs`). -/
theorem C7_outputs_completion (data : List (String × ComfyExecution)) (pid : String)
    (entry : String × ComfyExecution)
    (hfind : data.find? (fun p => p.1 == pid) = some entry) :
    ((∀ st, entry.2.status = some st → st.error = none) → entry.2.outputs ≠ [] →
      comfyWait (fun _ => { status_code := 200, body := some data }) pid 300 4 =
        .completed data) ∧
    (∀ st e, entry.2.status = some st → st.completed = false → st.error = some e →
      comfyWait (fun _ => { status_code := 200, body := some data }) pid 300 4 =
        .execError e) := by
  constructor
  · intro hnoerr houts
    apply comfyWait_first_decisive
    have houts2 : entry.2.outputs.isEmpty = false := by
      cases h : entry.2.outputs with
      | nil => exact absurd h houts
      | cons a t => rfl
    cases hst : entry.2.status with
    | none => simp [comfyPollStep, hfind, hst, houts2]
    | some st =>
      have herr := hnoerr st hst
      cases hc : st.completed
      · simp [comfyPollStep, hfind, hst, hc, herr, houts2]
      · simp [comfyPollStep, hfind, hst, hc]
  · intro st e hst hc herr
    apply comfyWait_first_decisive
    simp [comfyPollStep, hfind, hst, hc, herr]

/-- History body for the C7 witness: completion signalled by outputs alone,
with no status object at all. -/
def c7DataB : List (String × ComfyExecution) :=
  [("j", { status := none, outputs := [("n", { images := ["a.png"] })] })]

/-- Witness for C7 (amended): completion via outputs alone (no status at
all), and an immediate execution error when the status carries one. -/
theorem C7_witness :
    comfyWait (fun _ => { status_code := 200, body := some c7DataB }) "j" 300 4 =
      .completed c7DataB ∧
    comfyWait c7Polls "job1" 300 4 = .execError "node failure" := by
  constructor
  · exact (C7_outputs_completion c7DataB "j" ("j", c7DataB.head (by decide) |>.2) rfl).1
      (fun st h => by cases h) (by decide)
  · exact (C7_outputs_completion c7Data "job1" ("job1", c7Exec) rfl).2
      { completed := false, error := some "node failure" } "node failure" rfl rfl rfl

/-! ## C8: workflow prompt injection -/

/-- The C8 counterexample node: the declared title matches, but the node has
no `inputs`/`text` to write into. -/
def c8Node : WorkflowNode := { meta_title := some "Input Prompt", inputs := none }

/-- C8 counterexample -- injection does not fail "exactly when no such node
exists": a workflow containing a node whose title equals "Input Prompt"
(case-insensitively) still fails when that node has no `text` input. -/
theorem C8_counterexample :
    nodeTitleMatches c8Node = true ∧
    inject_prompt_into_workflow [("1", c8Node)] "hello" =
      .error "Could not find a node with title Input Prompt in the workflow" := by
  exact ⟨by decide, rfl⟩

/-- C8 (amended) -- injection writes the prompt into the `text` input of the
*first* node whose declared title equals "Input Prompt" (case-insensitively)
*and* which has a `text` input, leaving every other node unchanged; it
fails with the configuration error exactly when no node satisfies both
conditions (title-matching nodes without a `text` input are skipped). -/
theorem C8_inject_characterization (wf : List (String × WorkflowNode)) (prompt : String) :
    ((∃ e, inject_prompt_into_workflow wf prompt = .error e) ↔
      ∀ entry ∈ wf, nodeQualifies entry.2 = false) ∧
    (∀ pre nid n post, wf = pre ++ (nid, n) :: post →
      (∀ entry ∈ pre, nodeQualifies entry.2 = false) →
      nodeQualifies n = true →
      inject_prompt_into_workflow wf prompt =
        .ok (pre ++ (nid, setTextInput n prompt) :: post)) := by
  constructor
  · induction wf with
    | nil => simp [inject_prompt_into_workflow]
    | cons hd tl ih =>
      obtain ⟨nid, n⟩ := hd
      by_cases hq : nodeQualifies n
      · simp [inject_prompt_into_workflow, hq]
      · constructor
        · rintro ⟨e, he⟩ entry hmem
          rcases List.mem_cons.mp hmem with rfl | hmem2
          · simpa using hq
          · refine (ih.mp ?_) entry hmem2
            simp only [inject_prompt_into_workflow, if_neg hq] at he
            cases hrec : inject_prompt_into_workflow tl prompt with
            | ok r => rw [hrec] at he; cases he
            | error e2 => exact ⟨e2, rfl⟩
        · intro hall
          have htl : ∃ e, inject_prompt_into_workflow tl prompt = .error e :=
            ih.mpr (fun entry hmem => hall entry (List.mem_cons_of_mem _ hmem))
          obtain ⟨e, he⟩ := htl
          exact ⟨e, by simp [inject_prompt_into_workflow, hq, he]⟩
  · intro pre
    induction pre generalizing wf with
    | nil =>
      rintro nid n post rfl _ hq
      simp [inject_prompt_into_workflow, hq]
    | cons a pre2 ih =>
      rintro nid n post rfl hpre hq
      have ha : nodeQualifies a.2 = false := hpre a (List.mem_cons_self _ _)
      have hrest := ih (pre2 ++ (nid, n) :: post) nid n post rfl
        (fun entry hmem => hpre entry (List.mem_cons_of_mem _ hmem)) hq
      obtain ⟨aid, an⟩ := a
      simp only [List.cons_append, inject_prompt_into_workflow]
      rw [if_neg (by simp [ha])]
      simp only [List.append_eq]
      rw [hrest]

/-- A qualifying node for the C8 witness, with an upper-case title and an
existing `text` input next to another input. -/
def c8GoodNode : WorkflowNode :=
  { meta_title := some "INPUT PROMPT",
    inputs := some [("text", JValue.str "old"), ("seed", JValue.num 5)] }

/-- Witness for C8 (amended): the first node title-matches but lacks a
`text` input and is skipped; the prompt lands in the second node. -/
theorem C8_witness :
    inject_prompt_into_workflow [("1", c8Node), ("2", c8GoodNode)] "hello" =
      .ok [("1", c8Node), ("2", setTextInput c8GoodNode "hello")] := by
  exact (C8_inject_characterization [("1", c8Node), ("2", c8GoodNode)] "hello").2
    [("1", c8Node)] "2" c8GoodNode [] rfl
    (fun entry hmem => by
      rcases List.mem_singleton.mp hmem with rfl
      rfl)
    (by decide)

/-! ## Interleave machinery for C9 and C10 -/

/-- Members of a group carry that group's source tag. -/
theorem mem_groupOf_source {imgs : List ImageAlternative} {s : String}
    {x : ImageAlternative} (h : x ∈ groupOf imgs s) : x.source = s ∧ x ∈ imgs := by
  rcases List.mem_filter.mp h with ⟨h1, h2⟩
  exact ⟨by simpa using h2, h1⟩

/-- A member of a list of naturals is bounded by the folded maximum. -/
theorem le_foldr_max {l : List Nat} {a : Nat} (h : a ∈ l) : a ≤ l.foldr max 0 := by
  induction l with
  | nil => cases h
  | cons b t ih =>
    rcases List.mem_cons.mp h with rfl | h2
    · exact le_max_left _ _
    · exact (ih h2).trans (le_max_right _ _)

/-- Each group is no longer than the loop bound `max_len`. -/
theorem groupOf_length_le_maxGroupLen (imgs : List ImageAlternative) (s : String) :
    (groupOf imgs s).length ≤ maxGroupLen imgs := by
  cases hg : groupOf imgs s with
  | nil => simp
  | cons x t =>
    have hx : x ∈ groupOf imgs s := by rw [hg]; exact List.mem_cons_self _ _
    obtain ⟨hsrc, hmem⟩ := mem_groupOf_source hx
    have hs : s ∈ sourcesOf imgs := by
      unfold sourcesOf
      rw [List.mem_dedup, ← hsrc]
      exact List.mem_map_of_mem _ hmem
    have hval : (groupOf imgs s).length ∈
        (sourcesOf imgs).map (fun s => (groupOf imgs s).length) :=
      List.mem_map_of_mem _ hs
    rw [hg] at hval
    unfold maxGroupLen
    exact le_foldr_max hval

/-- Indexing past the head indexes the tail. -/
theorem getElem?_succ_tail {α : Type} (l : List α) (i : Nat) : l[i + 1]? = l.tail[i]? := by
  cases l <;> simp

/-- Splitting the first round off a `range`-driven `flatMap`. -/
theorem flatMap_range_succ_head {α : Type} (F : Nat → List α) (n : Nat) :
    (List.range (n + 1)).flatMap F = F 0 ++ (List.range n).flatMap (fun i => F (i + 1)) := by
  rw [List.range_succ_eq_map]
  simp [List.flatMap_cons, List.flatMap_map, Function.comp]

/-- One step of the ragged transpose: the first round takes every head, the
remaining rounds transpose the tails. -/
theorem transpose_step {α : Type} (ls : List (List α)) (n : Nat) :
    (List.range (n + 1)).flatMap (fun i => ls.filterMap (fun l => l[i]?)) =
      ls.filterMap List.head? ++
        (List.range n).flatMap (fun i => (ls.map List.tail).filterMap (fun l => l[i]?)) := by
  rw [flatMap_range_succ_head]
  congr 1
  · congr 1
    funext l
    exact (List.head?_eq_getElem? l).symm
  · have hfun : (fun i => ls.filterMap (fun l => l[i + 1]?)) =
        (fun i => (ls.map List.tail).filterMap (fun l => l[i]?)) := by
      funext i
      rw [List.filterMap_map]
      simp only [getElem?_succ_tail]
      rfl
    rw [hfun]

/-- Flattening a list of lists is, up to permutation, all the heads followed
by the flattened tails. -/
theorem heads_tails_perm {α : Type} (ls : List (List α)) :
    (ls.filterMap List.head? ++ (ls.map List.tail).flatten).Perm ls.flatten := by
  induction ls with
  | nil => simp
  | cons l t ih =>
    cases l with
    | nil => simpa using ih
    | cons a as =>
      simp only [List.filterMap_cons, List.head?_cons, List.map_cons, List.flatten_cons,
        List.tail_cons, List.cons_append]
      refine List.Perm.cons a ?_
      rw [← List.append_assoc]
      refine (List.perm_append_comm.append_right _).trans ?_
      rw [List.append_assoc]
      exact ih.append_left as

/-- The ragged transpose is a permutation of the flattened rows, once the
round count bounds every row length. -/
theorem transpose_perm {α : Type} :
    ∀ (n : Nat) (ls : List (List α)), (∀ l ∈ ls, l.length ≤ n) →
    ((List.range n).flatMap (fun i => ls.filterMap (fun l => l[i]?))).Perm ls.flatten := by
  intro n
  induction n with
  | zero =>
    intro ls h
    have hnil : ls.flatten = [] :=
      List.flatten_eq_nil_iff.mpr (fun l hl => List.length_eq_zero.mp
        (Nat.le_zero.mp (h l hl)))
    simp [hnil]
  | succ n ih =>
    intro ls h
    rw [transpose_step]
    have h2 : ∀ l ∈ ls.map List.tail, l.length ≤ n := by
      intro l hl
      rcases List.mem_map.mp hl with ⟨l0, hl0, rfl⟩
      have := h l0 hl0
      simp only [List.length_tail]
      omega
    exact ((ih (ls.map List.tail) h2).append_left _).trans (heads_tails_perm ls)

/-- Removing the candidates of source `s` leaves every other group
unchanged. -/
theorem groupOf_filter_sub (imgs : List ImageAlternative) (s s' : String)
    (hne : s' ≠ s) :
    groupOf (imgs.filter (fun x => !(x.source == s))) s' = groupOf imgs s' := by
  unfold groupOf
  rw [List.filter_filter]
  apply List.filter_congr
  intro x _
  cases hx : x.source == s'
  · simp
  · have hxs : x.source = s' := by simpa using hx
    simp [hxs, hne]

/-- Concatenating the groups of a duplicate-free source list that covers
every candidate is, up to permutation, the candidate list itself. -/
theorem groups_flatten_perm :
    ∀ (ss : List String) (imgs : List ImageAlternative), ss.Nodup →
    (∀ x ∈ imgs, x.source ∈ ss) →
    ((ss.map (groupOf imgs)).flatten).Perm imgs := by
  intro ss
  induction ss with
  | nil =>
    intro imgs _ h
    have : imgs = [] := by
      rw [List.eq_nil_iff_forall_not_mem]
      intro a ha
      exact absurd (h a ha) (List.not_mem_nil _)
    simp [this]
  | cons s t ih =>
    intro imgs hnd h
    simp only [List.map_cons, List.flatten_cons]
    have hsnott : s ∉ t := (List.nodup_cons.mp hnd).1
    have hmapeq : t.map (groupOf imgs) =
        t.map (groupOf (imgs.filter (fun x => !(x.source == s)))) := by
      apply List.map_congr_left
      intro s' hs'
      have hne : s' ≠ s := fun he => hsnott (he ▸ hs')
      exact (groupOf_filter_sub imgs s s' hne).symm
    have hrest := ih (imgs.filter (fun x => !(x.source == s)))
      (List.nodup_cons.mp hnd).2
      (by
        intro x hx
        rcases List.mem_filter.mp hx with ⟨hx1, hx2⟩
        rcases List.mem_cons.mp (h x hx1) with hxs | hxs
        · simp [hxs] at hx2
        · exact hxs)
    rw [hmapeq]
    refine (hrest.append_left (groupOf imgs s)).trans ?_
    exact List.filter_append_perm (fun x : ImageAlternative => x.source == s) imgs

/-- The interleave loop is the ragged transpose of the priority-ordered
groups. -/
theorem interleave_as_transpose (imgs : List ImageAlternative) :
    interleaveImages imgs = (List.range (maxGroupLen imgs)).flatMap
      (fun i => (sourcePriority.map (groupOf imgs)).filterMap (fun l => l[i]?)) := by
  unfold interleaveImages interleaveStep
  congr 1

/-- Every candidate of the aggregator's `all_images` list carries one of the
four priority source tags (given the Pexels/Pixabay tag facts). -/
theorem collect_sources (r0 : Except Unit (List UnsplashImage))
    (r1 : Except Unit (List WikimediaImage)) (r2 r3 : Except Unit (List ImageAlternative))
    (h2 : ∀ l, r2 = .ok l → ∀ x ∈ l, x.source = "pexels")
    (h3 : ∀ l, r3 = .ok l → ∀ x ∈ l, x.source = "pixabay") :
    ∀ x ∈ collectImages r0 r1 r2 r3, x.source ∈ sourcePriority := by
  intro x hx
  unfold collectImages at hx
  rcases List.mem_append.mp hx with hx | hx3
  rotate_left
  · cases hr : r3 with
    | error e => rw [hr] at hx3; cases hx3
    | ok l => rw [hr] at hx3; rw [h3 l hr x hx3]; decide
  rcases List.mem_append.mp hx with hx | hx2
  rotate_left
  · cases hr : r2 with
    | error e => rw [hr] at hx2; cases hx2
    | ok l => rw [hr] at hx2; rw [h2 l hr x hx2]; decide
  rcases List.mem_append.mp hx with hx0 | hx1
  · cases hr : r0 with
    | error e => rw [hr] at hx0; cases hx0
    | ok l =>
      rw [hr] at hx0
      rcases List.mem_map.mp hx0 with ⟨u, _, rfl⟩
      exact (by decide : "unsplash" ∈ sourcePriority)
  · cases hr : r1 with
    | error e => rw [hr] at hx1; cases hx1
    | ok l =>
      rw [hr] at hx1
      rcases List.mem_map.mp hx1 with ⟨u, _, rfl⟩
      exact (by decide : "wikimedia" ∈ sourcePriority)

/-- The interleaved list permutes `all_images` when all sources are among
the four priority tags. -/
theorem interleave_perm (imgs : List ImageAlternative)
    (hall : ∀ x ∈ imgs, x.source ∈ sourcePriority) :
    (interleaveImages imgs).Perm imgs := by
  rw [interleave_as_transpose]
  have hlen : ∀ l ∈ sourcePriority.map (groupOf imgs), l.length ≤ maxGroupLen imgs := by
    intro l hl
    rcases List.mem_map.mp hl with ⟨s, _, rfl⟩
    exact groupOf_length_le_maxGroupLen imgs s
  refine (transpose_perm _ _ hlen).trans ?_
  exact groups_flatten_perm sourcePriority imgs (by decide) hall

/-- `filterMap` over a cons, written with `Option.toList`. -/
theorem filterMap_cons_toList {α β : Type} (f : α → Option β) (a : α) (l : List α) :
    List.filterMap f (a :: l) = (f a).toList ++ List.filterMap f l := by
  cases h : f a <;> simp [h]

/-- Filtering the one-element-or-empty list of a group lookup: it survives
exactly when the group's tag is the filtered source. -/
theorem opt_toList_filter (o : Option ImageAlternative) (nm s : String)
    (h : ∀ x, o = some x → x.source = nm) :
    o.toList.filter (fun x => x.source == s) = if nm = s then o.toList else [] := by
  cases o with
  | none => simp
  | some x =>
    have hx := h x rfl
    by_cases hns : nm = s
    · subst hns
      simp [hx]
    · have : (x.source == s) = false := by
        simp [hx]
        exact fun he => hns he
      simp [this, hns]

/-- Candidates drawn from a group's `i`-th slot carry the group's tag. -/
theorem groupOf_getElem_source (imgs : List ImageAlternative) (nm : String) (i : Nat) :
    ∀ x, (groupOf imgs nm)[i]? = some x → x.source = nm := by
  intro x hx
  exact (mem_groupOf_source (List.getElem?_mem hx)).1

/-- Within one round of the interleave, the candidates of source `s` are
exactly the `i`-th slot of the `s` group (for `s` among the priority
sources). -/
theorem step_filter_of_mem (imgs : List ImageAlternative) (s : String) (i : Nat)
    (hs : s ∈ sourcePriority) :
    (interleaveStep imgs i).filter (fun x => x.source == s) =
      ((groupOf imgs s)[i]?).toList := by
  unfold interleaveStep sourcePriority
  rw [show (["unsplash", "pexels", "wikimedia", "pixabay"] : List String) =
    "unsplash" :: "pexels" :: "wikimedia" :: "pixabay" :: [] from rfl]
  rw [filterMap_cons_toList, filterMap_cons_toList, filterMap_cons_toList,
    filterMap_cons_toList]
  simp only [List.filterMap_nil, List.append_nil, List.filter_append]
  rw [opt_toList_filter _ "unsplash" s (groupOf_getElem_source imgs "unsplash" i),
    opt_toList_filter _ "pexels" s (groupOf_getElem_source imgs "pexels" i),
    opt_toList_filter _ "wikimedia" s (groupOf_getElem_source imgs "wikimedia" i),
    opt_toList_filter _ "pixabay" s (groupOf_getElem_source imgs "pixabay" i)]
  unfold sourcePriority at hs
  rcases List.mem_cons.mp hs with rfl | hs
  · simp
  rcases List.mem_cons.mp hs with rfl | hs
  · simp
  rcases List.mem_cons.mp hs with rfl | hs
  · simp
  rcases List.mem_cons.mp hs with rfl | hs
  · simp
  cases hs

/-- Collecting the `i`-th slots of a list over `i < n` yields its first `n`
elements. -/
theorem flatMap_range_getElem_toList {α : Type} (l : List α) :
    ∀ n, (List.range n).flatMap (fun i => (l[i]?).toList) = l.take n := by
  intro n
  induction n with
  | zero => simp
  | succ n ih =>
    rw [List.range_succ, List.flatMap_append, ih]
    simp [List.take_succ]

/-- Interleaving preserves, for every source `s`, the subsequence of
candidates of that source. -/
theorem interleave_filter_stable (imgs : List ImageAlternative)
    (hall : ∀ x ∈ imgs, x.source ∈ sourcePriority) (s : String) :
    (interleaveImages imgs).filter (fun x => x.source == s) =
      imgs.filter (fun x => x.source == s) := by
  by_cases hs : s ∈ sourcePriority
  · unfold interleaveImages
    rw [List.filter_flatMap]
    have hfun : (fun i => (interleaveStep imgs i).filter (fun x => x.source == s)) =
        (fun i => ((groupOf imgs s)[i]?).toList) :=
      funext (fun i => step_filter_of_mem imgs s i hs)
    rw [hfun, flatMap_range_getElem_toList,
      List.take_of_length_le (groupOf_length_le_maxGroupLen imgs s)]
    rfl
  · have hnil : ∀ (l : List ImageAlternative), (∀ x ∈ l, x.source ∈ sourcePriority) →
        l.filter (fun x => x.source == s) = [] := by
      intro l hl
      rw [List.filter_eq_nil_iff]
      intro x hx
      have := hl x hx
      simp only [beq_iff_eq]
      intro he
      exact hs (he ▸ this)
    rw [hnil imgs hall, hnil (interleaveImages imgs)
      (fun x hx => hall x ((interleave_perm imgs hall).mem_iff.mp hx))]

/-- C10 -- For every set of per-source adapter outcomes (with the Pexels and
Pixabay helpers' fixed tags), the interleaved list built by
`search_multiple_sources` before the final truncation to 10 contains
exactly the candidates of the successful adapters — a permutation of
`all_images`, so none dropped and none duplicated — and for every source
`s` the candidates of `s` appear in the same relative order in which that
adapter returned them (the filtered subsequences coincide). -/
theorem C10_interleave_exact (r0 : Except Unit (List UnsplashImage))
    (r1 : Except Unit (List WikimediaImage)) (r2 r3 : Except Unit (List ImageAlternative))
    (h2 : ∀ l, r2 = .ok l → ∀ x ∈ l, x.source = "pexels")
    (h3 : ∀ l, r3 = .ok l → ∀ x ∈ l, x.source = "pixabay") :
    (interleaveImages (collectImages r0 r1 r2 r3)).Perm (collectImages r0 r1 r2 r3) ∧
    ∀ s, (interleaveImages (collectImages r0 r1 r2 r3)).filter (fun x => x.source == s) =
      (collectImages r0 r1 r2 r3).filter (fun x => x.source == s) := by
  have hall := collect_sources r0 r1 r2 r3 h2 h3
  exact ⟨interleave_perm _ hall, fun s => interleave_filter_stable _ hall s⟩

/-- A concrete Unsplash result for the C10 witness. -/
def w10u : UnsplashImage :=
  { url := "u1", thumbnail_url := "ut1", description := none, attribution := "by A" }

/-- Concrete Pexels candidates for the C10 witness. -/
def w10p1 : ImageAlternative :=
  { url := "p1", thumbnail_url := none, source := "pexels", attribution := none,
    description := none }

/-- Second concrete Pexels candidate. -/
def w10p2 : ImageAlternative :=
  { url := "p2", thumbnail_url := none, source := "pexels", attribution := none,
    description := none }

/-- Witness for C10: one successful Unsplash adapter, a raising Wikimedia
adapter, two Pexels candidates, an empty Pixabay result. -/
theorem C10_witness :
    (interleaveImages (collectImages (.ok [w10u]) (.error ()) (.ok [w10p1, w10p2])
      (.ok []))).Perm (collectImages (.ok [w10u]) (.error ()) (.ok [w10p1, w10p2]) (.ok [])) ∧
    (interleaveImages (collectImages (.ok [w10u]) (.error ()) (.ok [w10p1, w10p2])
        (.ok []))).filter (fun x => x.source == "pexels") =
      (collectImages (.ok [w10u]) (.error ()) (.ok [w10p1, w10p2])
        (.ok [])).filter (fun x => x.source == "pexels") := by
  have H := C10_interleave_exact (.ok [w10u]) (.error ()) (.ok [w10p1, w10p2]) (.ok [])
    (by
      intro l hl
      injection hl with hl2
      subst hl2
      intro x hx
      rcases List.mem_cons.mp hx with rfl | hx
      · rfl
      · rcases List.mem_singleton.mp hx with rfl
        rfl)
    (by
      intro l hl
      injection hl with hl2
      subst hl2
      intro x hx
      cases hx)
  exact ⟨H.1, H.2 "pexels"⟩

/-! ## C9: fairness of the interleave -/

/-- A `filterMap` over a duplicate-free list whose function answers only at
one element has at most one result. -/
theorem filterMap_length_le_one {β : Type} (f : String → Option β) (c : String) :
    ∀ (l : List String), l.Nodup → (∀ s ∈ l, (f s).isSome → s = c) →
    (l.filterMap f).length ≤ 1 := by
  intro l
  induction l with
  | nil => simp
  | cons a t ih =>
    intro hnd h
    cases hfa : f a with
    | none =>
      rw [List.filterMap_cons_none hfa]
      exact ih (List.nodup_cons.mp hnd).2
        (fun s hs hsome => h s (List.mem_cons_of_mem _ hs) hsome)
    | some b =>
      rw [List.filterMap_cons_some hfa]
      have ha : a = c := h a (List.mem_cons_self _ _) (by simp [hfa])
      have htl : List.filterMap f t = [] := by
        rw [List.filterMap_eq_nil_iff]
        intro s hs
        cases hfs : f s with
        | none => rfl
        | some b2 =>
          exfalso
          apply (List.nodup_cons.mp hnd).1
          have hsa : s = a := by
            rw [h s (List.mem_cons_of_mem _ hs) (by simp [hfs]), ha]
          rwa [hsa] at hs
      rw [htl]
      simp

/-- A `filterMap` over a duplicate-free list whose function answers only at
two elements has at most two results. -/
theorem filterMap_length_le_two {β : Type} (f : String → Option β) (c d : String) :
    ∀ (l : List String), l.Nodup → (∀ s ∈ l, (f s).isSome → s = c ∨ s = d) →
    (l.filterMap f).length ≤ 2 := by
  intro l
  induction l with
  | nil => simp
  | cons a t ih =>
    intro hnd h
    cases hfa : f a with
    | none =>
      rw [List.filterMap_cons_none hfa]
      exact ih (List.nodup_cons.mp hnd).2
        (fun s hs hsome => h s (List.mem_cons_of_mem _ hs) hsome)
    | some b =>
      rw [List.filterMap_cons_some hfa]
      have hnotmem := (List.nodup_cons.mp hnd).1
      have hres : (t.filterMap f).length ≤ 1 := by
        rcases h a (List.mem_cons_self _ _) (by simp [hfa]) with ha | ha
        · refine filterMap_length_le_one f d t (List.nodup_cons.mp hnd).2 ?_
          intro s hs hsome
          rcases h s (List.mem_cons_of_mem _ hs) hsome with h1 | h1
          · exfalso
            apply hnotmem
            have hsa : s = a := by rw [h1, ha]
            rwa [hsa] at hs
          · exact h1
        · refine filterMap_length_le_one f c t (List.nodup_cons.mp hnd).2 ?_
          intro s hs hsome
          rcases h s (List.mem_cons_of_mem _ hs) hsome with h1 | h1
          · exact h1
          · exfalso
            apply hnotmem
            have hsa : s = a := by rw [h1, ha]
            rwa [hsa] at hs
      simp only [List.length_cons]
      omega

/-- When exactly the groups of `sA` and `sB` can be non-empty and the `sB`
group is the singleton `[b]`, the candidate `b` lands among the first two
interleaved entries: the first round lists the heads of the (at most two)
non-empty groups and `b` is one of them. -/
theorem singleton_group_in_take_two (imgs : List ImageAlternative) (sA sB : String)
    (b : ImageAlternative) (hB : sB ∈ sourcePriority)
    (hgB : groupOf imgs sB = [b])
    (hother : ∀ s ∈ sourcePriority, s ≠ sA → s ≠ sB → groupOf imgs s = []) :
    b ∈ (interleaveImages imgs).take 2 := by
  have h1 : 1 ≤ maxGroupLen imgs := by
    have hle := groupOf_length_le_maxGroupLen imgs sB
    rw [hgB] at hle
    simpa using hle
  obtain ⟨n, hn⟩ : ∃ n, maxGroupLen imgs = n + 1 :=
    ⟨maxGroupLen imgs - 1, by omega⟩
  unfold interleaveImages
  rw [hn, flatMap_range_succ_head]
  have hb0 : b ∈ interleaveStep imgs 0 := by
    unfold interleaveStep
    exact List.mem_filterMap.mpr ⟨sB, hB, by rw [hgB]; rfl⟩
  have hlen : (interleaveStep imgs 0).length ≤ 2 := by
    unfold interleaveStep
    refine filterMap_length_le_two _ sA sB sourcePriority (by decide) ?_
    intro s hs hsome
    by_contra hcon
    push_neg at hcon
    rw [hother s hs hcon.1 hcon.2] at hsome
    simp at hsome
  rw [List.take_append_eq_append_take]
  apply List.mem_append_left
  rwa [List.take_of_length_le hlen]

/-- The source tag each of the four adapter positions contributes
(positions in `asyncio.gather` order: Unsplash, Wikimedia, Pexels,
Pixabay). -/
def adapterSource : Fin 4 → String
  | 0 => "unsplash"
  | 1 => "wikimedia"
  | 2 => "pexels"
  | 3 => "pixabay"

/-- The candidates each successful adapter contributes to `all_images`
(after the inline conversions). -/
def processedLists (l0 : List UnsplashImage) (l1 : List WikimediaImage)
    (l2 l3 : List ImageAlternative) : Fin 4 → List ImageAlternative
  | 0 => l0.map unsplashToAlternative
  | 1 => l1.map wikimediaToAlternative
  | 2 => l2
  | 3 => l3

/-- Each adapter's tag is a priority source. -/
theorem adapterSource_mem : ∀ i : Fin 4, adapterSource i ∈ sourcePriority := by decide

/-- The four adapter tags are pairwise distinct. -/
theorem adapterSource_inj : ∀ i j : Fin 4, adapterSource i = adapterSource j → i = j := by
  decide

/-- Every priority source is some adapter's tag. -/
theorem sourcePriority_covered : ∀ s ∈ sourcePriority, ∃ i : Fin 4, adapterSource i = s := by
  decide

/-- Every candidate an adapter contributes carries that adapter's tag. -/
theorem processed_tags (l0 : List UnsplashImage) (l1 : List WikimediaImage)
    (l2 l3 : List ImageAlternative)
    (h2 : ∀ x ∈ l2, x.source = "pexels") (h3 : ∀ x ∈ l3, x.source = "pixabay")
    (i : Fin 4) : ∀ x ∈ processedLists l0 l1 l2 l3 i, x.source = adapterSource i := by
  fin_cases i
  · intro x hx
    rcases List.mem_map.mp hx with ⟨u, _, rfl⟩
    rfl
  · intro x hx
    rcases List.mem_map.mp hx with ⟨u, _, rfl⟩
    rfl
  · exact h2
  · exact h3

/-- `all_images` for four successful adapters is the concatenation of their
contributions. -/
theorem collect_ok_eq (l0 : List UnsplashImage) (l1 : List WikimediaImage)
    (l2 l3 : List ImageAlternative) :
    collectImages (.ok l0) (.ok l1) (.ok l2) (.ok l3) =
      processedLists l0 l1 l2 l3 0 ++ processedLists l0 l1 l2 l3 1 ++
        processedLists l0 l1 l2 l3 2 ++ processedLists l0 l1 l2 l3 3 := rfl

/-- Grouping distributes over concatenation. -/
theorem groupOf_append (a b : List ImageAlternative) (s : String) :
    groupOf (a ++ b) s = groupOf a s ++ groupOf b s := by
  unfold groupOf
  rw [List.filter_append]

/-- One adapter's contribution grouped by another adapter's tag: the whole
contribution for the same adapter, empty otherwise. -/
theorem groupOf_processed (l0 : List UnsplashImage) (l1 : List WikimediaImage)
    (l2 l3 : List ImageAlternative)
    (h2 : ∀ x ∈ l2, x.source = "pexels") (h3 : ∀ x ∈ l3, x.source = "pixabay")
    (i j : Fin 4) :
    groupOf (processedLists l0 l1 l2 l3 j) (adapterSource i) =
      if i = j then processedLists l0 l1 l2 l3 j else [] := by
  have htag := processed_tags l0 l1 l2 l3 h2 h3 j
  by_cases hij : i = j
  · subst hij
    rw [if_pos rfl]
    unfold groupOf
    apply List.filter_eq_self.mpr
    intro x hx
    simp [htag x hx]
  · rw [if_neg hij]
    unfold groupOf
    apply List.filter_eq_nil_iff.mpr
    intro x hx
    have hxs := htag x hx
    have hne : adapterSource j ≠ adapterSource i :=
      fun he => hij (adapterSource_inj j i he).symm
    simp [hxs, hne]

/-- Grouping `all_images` by an adapter's tag recovers exactly that
adapter's contribution. -/
theorem groupOf_collect (l0 : List UnsplashImage) (l1 : List WikimediaImage)
    (l2 l3 : List ImageAlternative)
    (h2 : ∀ x ∈ l2, x.source = "pexels") (h3 : ∀ x ∈ l3, x.source = "pixabay")
    (i : Fin 4) :
    groupOf (collectImages (.ok l0) (.ok l1) (.ok l2) (.ok l3)) (adapterSource i) =
      processedLists l0 l1 l2 l3 i := by
  rw [collect_ok_eq, groupOf_append, groupOf_append, groupOf_append,
    groupOf_processed l0 l1 l2 l3 h2 h3 i 0, groupOf_processed l0 l1 l2 l3 h2 h3 i 1,
    groupOf_processed l0 l1 l2 l3 h2 h3 i 2, groupOf_processed l0 l1 l2 l3 h2 h3 i 3]
  fin_cases i <;> simp

/-- C9 -- Interleaving is fair: whenever one adapter returns 5 candidates
and another single adapter returns exactly 1 (all other adapters empty),
the single candidate appears among the first 2 entries of the merged list
produced by `search_multiple_sources` — the round-robin merge visits every
source's index-0 candidate before any index-1 candidate. -/
theorem C9_fair_interleave (l0 : List UnsplashImage) (l1 : List WikimediaImage)
    (l2 l3 : List ImageAlternative)
    (h2 : ∀ x ∈ l2, x.source = "pexels") (h3 : ∀ x ∈ l3, x.source = "pixabay")
    (A B : Fin 4) (hAB : A ≠ B)
    (hlenA : (processedLists l0 l1 l2 l3 A).length = 5)
    (hlenB : (processedLists l0 l1 l2 l3 B).length = 1)
    (hO : ∀ i, i ≠ A → i ≠ B → processedLists l0 l1 l2 l3 i = []) :
    ∀ b ∈ processedLists l0 l1 l2 l3 B,
      b ∈ (search_multiple_sources (.ok l0) (.ok l1) (.ok l2) (.ok l3)).take 2 := by
  intro b hb
  obtain ⟨b', hb'⟩ := List.length_eq_one.mp hlenB
  rw [hb'] at hb
  rcases List.mem_singleton.mp hb with rfl
  unfold search_multiple_sources
  rw [List.take_take]
  have hmin : min 2 10 = 2 := by decide
  rw [hmin]
  apply singleton_group_in_take_two _ (adapterSource A) (adapterSource B) _
    (adapterSource_mem B)
  · rw [groupOf_collect l0 l1 l2 l3 h2 h3 B, hb']
  · intro s hs hsA hsB
    obtain ⟨i, rfl⟩ := sourcePriority_covered s hs
    have hiA : i ≠ A := fun he => hsA (by rw [he])
    have hiB : i ≠ B := fun he => hsB (by rw [he])
    rw [groupOf_collect l0 l1 l2 l3 h2 h3 i, hO i hiA hiB]

/-- Witness for C9: Unsplash (adapter 0) returns 5 candidates, Pexels
(adapter 2) returns exactly 1; the Pexels candidate lands among the first
two merged entries. -/
theorem C9_witness :
    w10p1 ∈ (search_multiple_sources (.ok [w10u, w10u, w10u, w10u, w10u]) (.ok [])
      (.ok [w10p1]) (.ok [])).take 2 := by
  refine C9_fair_interleave [w10u, w10u, w10u, w10u, w10u] [] [w10p1] []
    ?_ ?_ 0 2 (by decide) rfl rfl ?_ w10p1 (List.mem_singleton.mpr rfl)
  · intro x hx
    rcases List.mem_singleton.mp hx with rfl
    rfl
  · intro x hx
    cases hx
  · intro i hiA hiB
    fin_cases i
    · exact absurd rfl hiA
    · rfl
    · exact absurd rfl hiB
    · rfl
